import Mathlib

/-!
Verification of the budget-constrained order approval engine of the
shirt-ordering platform.  The definitions below are a shallow embedding of
the Convex backend modules (`convex/budgets.ts` — the first document of
`src/unnamed/part_009` —, `convex/orders.ts`, `convex/shirts.ts`, and the
rbac helpers).  Database tables are modelled as lists, document ids as
naturals, currency amounts as integers, `Date.now()` as an explicit `now`
parameter, and each Convex mutation as a function
`DB → … → Except Err (DB × α)` (a thrown JS `Error` is `Except.error`; the
Convex runtime rolls the transaction back, so an error leaves the database
unchanged).  Queries are functions `DB → … → α` and cannot write.
Audit-log, notification and scheduler writes are external sinks outside
the verified subsystem and are not part of the model.
-/

/-! ## Period Calculator (`calculatePeriodDates` in budgets.ts) -/

inductive PeriodType
  | monthly
  | quarterly
  | yearly
deriving DecidableEq, Repr

/-- A civil calendar datetime, the level at which the JS `Date` arithmetic of
`calculatePeriodDates` operates.  `month` is 0-based (as in JS `Date`),
`day` is 1-based, `msOfDay` counts milliseconds from local midnight. -/
structure Civil where
  year : Int
  month : Nat
  day : Nat
  msOfDay : Nat
deriving DecidableEq, Repr

def isLeapYear (y : Int) : Bool :=
  (y % 4 == 0 && y % 100 != 0) || y % 400 == 0

def daysInMonth (y : Int) (m : Nat) : Nat :=
  if m = 1 then (if isLeapYear y then 29 else 28)
  else if m = 3 ∨ m = 5 ∨ m = 8 ∨ m = 10 then 30
  else 31

/-- Model of the JS constructor `new Date(y, mArg, d, hh, mm, ss, ms)` as used
by `calculatePeriodDates`: the month argument may overflow past 11 (rolling
the year forward) and the day argument may be `0` (meaning the last day of
the previous month); the time-of-day arguments are folded into `ms`. -/
def jsDate (y : Int) (mArg : Int) (d : Int) (ms : Nat) : Civil :=
  let y1 : Int := y + mArg.fdiv 12
  let m1 : Nat := (mArg.emod 12).toNat
  if d = 0 then
    if m1 = 0 then ⟨y1 - 1, 11, daysInMonth (y1 - 1) 11, ms⟩
    else ⟨y1, m1 - 1, daysInMonth y1 (m1 - 1), ms⟩
  else ⟨y1, m1, d.toNat, ms⟩

/-- 23:59:59.999 as milliseconds of day. -/
def lastMs : Nat := 86399999

structure PeriodDates where
  periodStart : Civil
  periodEnd : Civil
deriving DecidableEq, Repr

/-- Embedding of `calculatePeriodDates(periodType, startDate?)`
(budgets.ts lines 9–29); `anchor` is the civil datetime of the anchor
timestamp (`startDate || Date.now()`). -/
def calculatePeriodDates (periodType : PeriodType) (anchor : Civil) : PeriodDates :=
  match periodType with
  | .monthly =>
      ⟨jsDate anchor.year anchor.month 1 0,
       jsDate anchor.year (anchor.month + 1) 0 lastMs⟩
  | .quarterly =>
      let quarter := anchor.month / 3
      ⟨jsDate anchor.year (quarter * 3) 1 0,
       jsDate anchor.year ((quarter + 1) * 3) 0 lastMs⟩
  | .yearly =>
      ⟨jsDate anchor.year 0 1 0,
       jsDate anchor.year 11 31 lastMs⟩

/-- C9: for every anchor, monthly periods run from the first instant (day 1,
00:00) of the anchor's month to its last instant (last day, 23:59:59.999);
quarterly periods cover the anchor's calendar quarter (quarter =
floor(month/3)); yearly periods cover Jan 1 00:00 – Dec 31 23:59:59.999 of
the anchor's year.  The December and fourth-quarter cases exercise the year
rollover (`month + 1 = 12` is normalised back to the same year's December
via the day-0 underflow).  The function is a pure Lean `def`, hence
deterministic and side-effect free. -/
theorem calculatePeriodDates_correct (anchor : Civil) (hm : anchor.month ≤ 11) :
    calculatePeriodDates .monthly anchor =
      ⟨⟨anchor.year, anchor.month, 1, 0⟩,
       ⟨anchor.year, anchor.month, daysInMonth anchor.year anchor.month, lastMs⟩⟩ ∧
    calculatePeriodDates .quarterly anchor =
      ⟨⟨anchor.year, 3 * (anchor.month / 3), 1, 0⟩,
       ⟨anchor.year, 3 * (anchor.month / 3) + 2,
        daysInMonth anchor.year (3 * (anchor.month / 3) + 2), lastMs⟩⟩ ∧
    calculatePeriodDates .yearly anchor =
      ⟨⟨anchor.year, 0, 1, 0⟩, ⟨anchor.year, 11, 31, lastMs⟩⟩ := by
  obtain ⟨y, m, d, ms⟩ := anchor
  simp only [Civil.month] at hm
  refine ⟨?_, ?_, ?_⟩ <;>
    · simp only [calculatePeriodDates, jsDate, daysInMonth]
      interval_cases m <;> simp [Int.fdiv, Int.emod, isLeapYear]

/-- Concrete instantiation of `calculatePeriodDates_correct` at a December
anchor (month 11), the year-rollover edge case. -/
theorem calculatePeriodDates_correct_witness :
    calculatePeriodDates .monthly ⟨2024, 11, 15, 0⟩ =
      ⟨⟨2024, 11, 1, 0⟩, ⟨2024, 11, 31, lastMs⟩⟩ :=
  (calculatePeriodDates_correct ⟨2024, 11, 15, 0⟩ (by decide)).1

/-! ## Data model (convex/schema.ts, fields as used by the engine) -/

inductive OrderStatus
  | pending_approval
  | approved
  | rejected
  | confirmed
  | in_production
  | shipped
  | delivered
  | cancelled
deriving DecidableEq, Repr

inductive PaymentSource
  | company_budget
  | personal
deriving DecidableEq, Repr

inductive BudgetStatus
  | active
  | completed
  | cancelled
deriving DecidableEq, Repr

inductive Role
  | companyAdmin
  | employee
deriving DecidableEq, Repr

structure Member where
  id : Nat
  companyId : Nat
  userId : Nat
  role : Role
deriving DecidableEq, Repr

structure CompanyBudget where
  id : Nat
  companyId : Nat
  periodStart : Int
  periodEnd : Int
  totalBudget : Int
  allocatedBudget : Int
  spentBudget : Int
  remainingBudget : Int
  status : BudgetStatus
deriving DecidableEq, Repr

structure EmployeeBudget where
  id : Nat
  companyBudgetId : Nat
  memberId : Nat
  allocatedAmount : Int
  spentAmount : Int
  remainingAmount : Int
deriving DecidableEq, Repr

structure OrderItem where
  shirtTypeId : Nat
  variantId : Nat
  size : Nat
  quantity : Int
  unitPrice : Int
  totalPrice : Int
deriving DecidableEq, Repr

structure Order where
  id : Nat
  companyId : Nat
  userId : Nat
  items : List OrderItem
  totalAmount : Int
  status : OrderStatus
  paymentSource : Option PaymentSource
  budgetId : Option Nat
  employeeBudgetId : Option Nat
deriving DecidableEq, Repr

structure CartItem where
  id : Nat
  userId : Nat
  companyId : Nat
  shirtTypeId : Nat
  variantId : Nat
  size : Nat
  quantity : Int
deriving DecidableEq, Repr

structure ShirtType where
  id : Nat
  basePrice : Int
deriving DecidableEq, Repr

structure Variant where
  id : Nat
  priceModifier : Int
  availableSizes : List Nat
deriving DecidableEq, Repr

structure Vendor where
  id : Nat
  companyId : Nat
deriving DecidableEq, Repr

structure VendorMember where
  userId : Nat
  vendorId : Nat
deriving DecidableEq, Repr

/-- The database state: each Convex table as a list, plus a fresh-id counter
standing for the id generator of `ctx.db.insert`. -/
structure DB where
  members : List Member
  companyBudgets : List CompanyBudget
  employeeBudgets : List EmployeeBudget
  orders : List Order
  cartItems : List CartItem
  shirtTypes : List ShirtType
  variants : List Variant
  vendors : List Vendor
  vendorMembers : List VendorMember
  nextId : Nat
deriving DecidableEq, Repr

/-- Errors thrown by the mutations (`throw new Error(...)` in the source);
each constructor corresponds to one thrown message, named after the spec's
error taxonomy where the taxonomy has a name for it:
`budgetExceeded` is the thrown message about the allocated amount exceeding
the budget (spec: `BudgetExceededError`), `invalidReduction` the message
about reducing an allocation below the spent amount (spec:
`InvalidReductionError`), `duplicateAllocation` the message about an already
existing allocation (spec: `DuplicateAllocationError`), and
`budgetUnavailable r` the creation-time failure re-throwing the Availability
Gate's reason `r`. -/
inductive Reason
  | notAuthenticated
  | notCompanyMember
  | memberNotFound
  | noActiveBudget
  | noAllocation
  | insufficientBudget
deriving DecidableEq, Repr

inductive Err
  | notAuthenticated
  | notAuthorized
  | notFound
  | cartEmpty
  | invalidCartItem
  | sizeUnavailable
  | budgetUnavailable (r : Reason)
  | notActiveBudget
  | memberMismatch
  | duplicateAllocation
  | budgetExceeded
  | invalidReduction
deriving DecidableEq, Repr

/-! ## Spend Recalculator (§4.3) -/

/-- The "recognized" statuses: the `q.or(...)` status filter repeated in
`checkBudgetAvailability`, `deductBudget`, `getEmployeeBudget`,
`getCompanyBudgets` and `getBudgetSummary`. -/
def recognizedStatus : OrderStatus → Bool
  | .approved => true
  | .confirmed => true
  | .in_production => true
  | .shipped => true
  | .delivered => true
  | _ => false

/-- An order is bound to allocation `ebId` under budget `budgetId`: the
index/filter condition of the recomputation scans. -/
def boundTo (budgetId ebId : Nat) (o : Order) : Bool :=
  o.budgetId = some budgetId && o.employeeBudgetId = some ebId

/-- The recomputation of an allocation's spend
(budgets.ts lines 525–543 of `checkBudgetAvailability`, identical in
`deductBudget` lines 590–608): scan the orders bound to the allocation whose
status is recognized and `reduce((sum, o) => sum + o.totalAmount, 0)`. -/
def spentForAllocation (orders : List Order) (budgetId ebId : Nat) : Int :=
  (orders.filter fun o => boundTo budgetId ebId o && recognizedStatus o.status).foldl
    (fun sum o => sum + o.totalAmount) 0

/-- The recomputation of a whole budget's spend (`getBudgetSummary`,
`getCompanyBudgets`): all recognized orders bound to the budget, across all
employees. -/
def spentForBudget (orders : List Order) (budgetId : Nat) : Int :=
  (orders.filter fun o => o.budgetId = some budgetId && recognizedStatus o.status).foldl
    (fun sum o => sum + o.totalAmount) 0

/-- Patch an order's status (`ctx.db.patch(orderId, { status })`). -/
def setOrderStatus (orders : List Order) (orderId : Nat) (st : OrderStatus) : List Order :=
  orders.map fun o => if o.id = orderId then { o with status := st } else o

theorem foldl_add_totalAmount (l : List Order) (init : Int) :
    l.foldl (fun sum o => sum + o.totalAmount) init = init + (l.map Order.totalAmount).sum := by
  induction l generalizing init with
  | nil => simp
  | cons a t ih => simp [List.foldl_cons, ih]; ring

theorem spentForAllocation_cons (o : Order) (l : List Order) (b e : Nat) :
    spentForAllocation (o :: l) b e =
      (if boundTo b e o && recognizedStatus o.status then o.totalAmount else 0) +
        spentForAllocation l b e := by
  simp only [spentForAllocation, List.filter_cons]
  split
  · rw [List.foldl_cons, foldl_add_totalAmount, foldl_add_totalAmount]; ring
  · simp

theorem spentForAllocation_setStatus (orders : List Order) (oid : Nat) (st : OrderStatus)
    (hst : recognizedStatus st = false) (b e : Nat) :
    spentForAllocation (setOrderStatus orders oid st) b e =
      spentForAllocation (orders.filter fun o => o.id ≠ oid) b e := by
  induction orders with
  | nil => rfl
  | cons a t ih =>
      simp only [setOrderStatus, List.map_cons, List.filter_cons] at *
      by_cases ha : a.id = oid
      · simpa [ha, spentForAllocation_cons, boundTo, hst] using ih
      · simp only [ha, if_neg, ite_false, decide_not]
        simp [spentForAllocation_cons, ha, ih]

/-- C4: the recomputed spend of an allocation is exactly the sum of
`totalAmount` over its bound orders in a recognized status (first conjunct:
the code's `reduce` equals the mathematical sum over the recognized subset,
which also gives determinism — the result is a function of the order set
alone); an order in a non-recognized status contributes nothing (second
conjunct); and setting any order's status to `rejected` or `cancelled`
makes the next recomputation equal to the recomputation with that order
removed from the order set entirely (third and fourth conjuncts). -/
theorem spentForAllocation_correct (orders : List Order) (b e : Nat) :
    spentForAllocation orders b e =
      ((orders.filter fun o => boundTo b e o && recognizedStatus o.status).map
        Order.totalAmount).sum ∧
    (∀ o : Order, recognizedStatus o.status = false →
      spentForAllocation (o :: orders) b e = spentForAllocation orders b e) ∧
    (∀ oid : Nat, spentForAllocation (setOrderStatus orders oid .rejected) b e =
      spentForAllocation (orders.filter fun o => o.id ≠ oid) b e) ∧
    (∀ oid : Nat, spentForAllocation (setOrderStatus orders oid .cancelled) b e =
      spentForAllocation (orders.filter fun o => o.id ≠ oid) b e) := by
  refine ⟨by simp [spentForAllocation, foldl_add_totalAmount], ?_, ?_, ?_⟩
  · intro o ho
    simp [spentForAllocation_cons, ho]
  · intro oid
    exact spentForAllocation_setStatus orders oid .rejected rfl b e
  · intro oid
    exact spentForAllocation_setStatus orders oid .cancelled rfl b e

/-- Concrete instantiation of `spentForAllocation_correct`: one approved
order of 150 bound to allocation 5 under budget 4, one pending order of 100;
the recomputed spend is 150, and a pending order contributes nothing. -/
theorem spentForAllocation_correct_witness :
    spentForAllocation
        [⟨1, 0, 0, [], 150, .approved, some .company_budget, some 4, some 5⟩,
         ⟨2, 0, 0, [], 100, .pending_approval, some .company_budget, some 4, some 5⟩] 4 5 =
      (([⟨1, 0, 0, [], 150, .approved, some .company_budget, some 4, some 5⟩,
         ⟨2, 0, 0, [], 100, .pending_approval, some .company_budget, some 4,
          some 5⟩].filter fun o =>
            boundTo 4 5 o && recognizedStatus o.status).map Order.totalAmount).sum ∧
    spentForAllocation
        [⟨2, 0, 0, [], 100, .pending_approval, some .company_budget, some 4, some 5⟩,
         ⟨1, 0, 0, [], 150, .approved, some .company_budget, some 4, some 5⟩,
         ⟨2, 0, 0, [], 100, .pending_approval, some .company_budget, some 4, some 5⟩] 4 5 =
      spentForAllocation
        [⟨1, 0, 0, [], 150, .approved, some .company_budget, some 4, some 5⟩,
         ⟨2, 0, 0, [], 100, .pending_approval, some .company_budget, some 4, some 5⟩] 4 5 :=
  ⟨(spentForAllocation_correct
      [⟨1, 0, 0, [], 150, .approved, some .company_budget, some 4, some 5⟩,
       ⟨2, 0, 0, [], 100, .pending_approval, some .company_budget, some 4, some 5⟩] 4 5).1,
   (spentForAllocation_correct
      [⟨1, 0, 0, [], 150, .approved, some .company_budget, some 4, some 5⟩,
       ⟨2, 0, 0, [], 100, .pending_approval, some .company_budget, some 4, some 5⟩] 4 5).2.1
     ⟨2, 0, 0, [], 100, .pending_approval, some .company_budget, some 4, some 5⟩ (by decide)⟩

/-! ## Availability Gate (`checkBudgetAvailability`, budgets.ts lines 464–563) -/

/-- The result object returned by `checkBudgetAvailability`; absent JS fields
are `none`. -/
structure CheckResult where
  available : Bool
  reason : Option Reason := none
  remaining : Option Int := none
  employeeBudgetId : Option Nat := none
  budgetId : Option Nat := none
deriving DecidableEq, Repr

/-- Membership lookup on the `by_company_and_user` index. -/
def findMembership (db : DB) (companyId userId : Nat) : Option Member :=
  db.members.find? fun mb => mb.companyId = companyId && mb.userId = userId

/-- The active budget whose period window contains `now`: the query on
`by_company_and_status` followed by
`budgets.find(b => b.periodStart <= now && b.periodEnd >= now)`. -/
def activeBudgetFor (db : DB) (companyId : Nat) (now : Int) : Option CompanyBudget :=
  (db.companyBudgets.filter fun cb =>
      cb.companyId = companyId && cb.status = BudgetStatus.active).find?
    fun cb => cb.periodStart ≤ now && now ≤ cb.periodEnd

/-- Allocation lookup on the `by_member_and_budget` index. -/
def allocationFor (db : DB) (memberId budgetId : Nat) : Option EmployeeBudget :=
  db.employeeBudgets.find? fun eb =>
    eb.memberId = memberId && eb.companyBudgetId = budgetId

/-- `memberToCheck`: the caller's own membership unless a distinct
`memberId` argument was passed, in which case `ctx.db.get(memberIdToCheck)`. -/
def resolveMemberToCheck (db : DB) (membership : Member) (memberIdArg : Option Nat) :
    Option Member :=
  let memberIdToCheck := memberIdArg.getD membership.id
  if memberIdToCheck ≠ membership.id then db.members.find? fun mb => mb.id = memberIdToCheck
  else some membership

/-- Embedding of the `checkBudgetAvailability` query
(budgets.ts lines 464–563).  A query cannot write: the function returns only
a `CheckResult` and leaves the `DB` untouched by construction. -/
def checkBudgetAvailability (db : DB) (now : Int) (userId : Option Nat) (companyId : Nat)
    (memberIdArg : Option Nat) (amount : Int) : CheckResult :=
  match userId with
  | none => { available := false, reason := some .notAuthenticated }
  | some uid =>
    match findMembership db companyId uid with
    | none => { available := false, reason := some .notCompanyMember }
    | some membership =>
      let memberIdToCheck := memberIdArg.getD membership.id
      match resolveMemberToCheck db membership memberIdArg with
      | none => { available := false, reason := some .memberNotFound }
      | some _ =>
        match activeBudgetFor db companyId now with
        | none => { available := false, reason := some .noActiveBudget }
        | some currentBudget =>
          match allocationFor db memberIdToCheck currentBudget.id with
          | none => { available := false, reason := some .noAllocation }
          | some employeeBudget =>
            let actualSpent := spentForAllocation db.orders currentBudget.id employeeBudget.id
            let actualRemaining := employeeBudget.allocatedAmount - actualSpent
            if actualRemaining ≥ amount then
              { available := true, remaining := some actualRemaining,
                employeeBudgetId := some employeeBudget.id, budgetId := some currentBudget.id }
            else
              { available := false, reason := some .insufficientBudget,
                remaining := some actualRemaining,
                employeeBudgetId := some employeeBudget.id, budgetId := some currentBudget.id }

/-- C5: for an authenticated company member (any requested member that
resolves), `checkBudgetAvailability` returns `available = false` with the
no-active-budget reason when no active budget's window contains `now`;
`available = false` with the no-allocation reason when the member has no
allocation under the active budget; and otherwise
`available = (recomputed remaining ≥ requestedAmount)` with the recomputed
remaining reported.  The function is embedded as a read-only query
(`DB → CheckResult`): it takes no new state, so it writes nothing. -/
theorem checkBudgetAvailability_correct (db : DB) (now : Int) (uid companyId : Nat)
    (memberIdArg : Option Nat) (amount : Int) (membership mtc : Member)
    (hmem : findMembership db companyId uid = some membership)
    (hres : resolveMemberToCheck db membership memberIdArg = some mtc) :
    (activeBudgetFor db companyId now = none →
      checkBudgetAvailability db now (some uid) companyId memberIdArg amount =
        { available := false, reason := some .noActiveBudget }) ∧
    (∀ cb : CompanyBudget, activeBudgetFor db companyId now = some cb →
      allocationFor db (memberIdArg.getD membership.id) cb.id = none →
      checkBudgetAvailability db now (some uid) companyId memberIdArg amount =
        { available := false, reason := some .noAllocation }) ∧
    (∀ (cb : CompanyBudget) (eb : EmployeeBudget),
      activeBudgetFor db companyId now = some cb →
      allocationFor db (memberIdArg.getD membership.id) cb.id = some eb →
      (checkBudgetAvailability db now (some uid) companyId memberIdArg amount).available =
        decide (eb.allocatedAmount - spentForAllocation db.orders cb.id eb.id ≥ amount) ∧
      (checkBudgetAvailability db now (some uid) companyId memberIdArg amount).remaining =
        some (eb.allocatedAmount - spentForAllocation db.orders cb.id eb.id)) := by
  refine ⟨?_, ?_, ?_⟩
  · intro hcb
    simp [checkBudgetAvailability, hmem, hres, hcb]
  · intro cb hcb heb
    simp [checkBudgetAvailability, hmem, hres, hcb, heb]
  · intro cb eb hcb heb
    by_cases h : eb.allocatedAmount - spentForAllocation db.orders cb.id eb.id ≥ amount <;>
      simp [checkBudgetAvailability, hmem, hres, hcb, heb, h]

/-- The §8 scenario: allocation of 500 fully consumed by a 500 approved
order; a request for 1 yields `available = false`, remaining 0. -/
def dbC5 : DB :=
  { members := [⟨1, 100, 10, .employee⟩],
    companyBudgets := [⟨2, 100, 0, 1000, 1000, 500, 0, 500, .active⟩],
    employeeBudgets := [⟨3, 2, 1, 500, 0, 500⟩],
    orders := [⟨4, 100, 10, [], 500, .approved, some .company_budget, some 2, some 3⟩],
    cartItems := [], shirtTypes := [], variants := [], vendors := [],
    vendorMembers := [], nextId := 5 }

/-- Concrete instantiation of `checkBudgetAvailability_correct` on `dbC5`. -/
theorem checkBudgetAvailability_correct_witness :
    (checkBudgetAvailability dbC5 500 (some 10) 100 none 1).available = false ∧
    (checkBudgetAvailability dbC5 500 (some 10) 100 none 1).remaining = some 0 := by
  have h := (checkBudgetAvailability_correct dbC5 500 10 100 none 1 ⟨1, 100, 10, .employee⟩
    ⟨1, 100, 10, .employee⟩ (by decide) (by decide)).2.2
    ⟨2, 100, 0, 1000, 1000, 500, 0, 500, .active⟩ ⟨3, 2, 1, 500, 0, 500⟩ (by decide) (by decide)
  refine ⟨?_, ?_⟩
  · rw [h.1]; decide
  · rw [h.2]; decide

/-! ## Budget Ledger (`allocateEmployeeBudget` lines 222–302,
`updateEmployeeBudget` lines 305–380 of budgets.ts) -/

/-- `reduce((sum, alloc) => sum + alloc.allocatedAmount, 0)` over the
`by_company_budget` query (allocateEmployeeBudget lines 262–268). -/
def allocSum (allocs : List EmployeeBudget) (budgetId : Nat) : Int :=
  (allocs.filter fun a => a.companyBudgetId = budgetId).foldl
    (fun sum a => sum + a.allocatedAmount) 0

/-- The same scan but skipping the allocation currently being updated
(updateEmployeeBudget lines 333–343). -/
def allocSumExcluding (allocs : List EmployeeBudget) (budgetId ebId : Nat) : Int :=
  (allocs.filter fun a => a.companyBudgetId = budgetId).foldl
    (fun sum a => if a.id = ebId then sum else sum + a.allocatedAmount) 0

def findBudget (db : DB) (budgetId : Nat) : Option CompanyBudget :=
  db.companyBudgets.find? fun cb => cb.id = budgetId

def findAllocation (db : DB) (ebId : Nat) : Option EmployeeBudget :=
  db.employeeBudgets.find? fun eb => eb.id = ebId

/-- `ensureCompanyAdmin` (util/rbac.ts): authenticated member of the company
with role `companyAdmin`. -/
def isCompanyAdmin (db : DB) (companyId uid : Nat) : Bool :=
  match findMembership db companyId uid with
  | some mb => mb.role = Role.companyAdmin
  | none => false

def patchBudget (db : DB) (budgetId : Nat) (f : CompanyBudget → CompanyBudget) : DB :=
  { db with companyBudgets :=
      db.companyBudgets.map fun cb => if cb.id = budgetId then f cb else cb }

def patchAllocation (db : DB) (ebId : Nat) (f : EmployeeBudget → EmployeeBudget) : DB :=
  { db with employeeBudgets :=
      db.employeeBudgets.map fun eb => if eb.id = ebId then f eb else eb }

/-- Embedding of the `allocateEmployeeBudget` mutation: auth, budget lookup,
admin check, active check, member-company check, duplicate check, the
`currentAllocated + amount > totalBudget` guard, then insert of the new
allocation (spentAmount 0) and the patch of the budget's
allocated/remaining caches. -/
def allocateEmployeeBudget (db : DB) (userId : Option Nat) (companyBudgetId memberId : Nat)
    (allocatedAmount : Int) : Except Err (DB × Nat) :=
  match userId with
  | none => .error .notAuthenticated
  | some uid =>
    match findBudget db companyBudgetId with
    | none => .error .notFound
    | some budget =>
      if isCompanyAdmin db budget.companyId uid then
        if budget.status = .active then
          match db.members.find? fun mb => mb.id = memberId with
          | none => .error .memberMismatch
          | some member =>
            if member.companyId = budget.companyId then
              match allocationFor db memberId companyBudgetId with
              | some _ => .error .duplicateAllocation
              | none =>
                if allocSum db.employeeBudgets companyBudgetId + allocatedAmount >
                    budget.totalBudget then .error .budgetExceeded
                else
                  .ok
                    (patchBudget
                      { db with
                        employeeBudgets := db.employeeBudgets ++
                          [⟨db.nextId, companyBudgetId, memberId, allocatedAmount, 0,
                            allocatedAmount⟩],
                        nextId := db.nextId + 1 }
                      companyBudgetId
                      (fun cb =>
                        { cb with
                          allocatedBudget :=
                            allocSum db.employeeBudgets companyBudgetId + allocatedAmount,
                          remainingBudget := budget.totalBudget -
                            (allocSum db.employeeBudgets companyBudgetId + allocatedAmount) }),
                     db.nextId)
            else .error .memberMismatch
        else .error .notActiveBudget
      else .error .notAuthorized

/-- Embedding of the `updateEmployeeBudget` mutation.  The checks run in the
source's order: the over-allocation guard (lines 347–349) before the
reduction-below-spend guard (lines 352–354). -/
def updateEmployeeBudget (db : DB) (userId : Option Nat) (employeeBudgetId : Nat)
    (allocatedAmount : Int) : Except Err DB :=
  match userId with
  | none => .error .notAuthenticated
  | some uid =>
    match findAllocation db employeeBudgetId with
    | none => .error .notFound
    | some employeeBudget =>
      match findBudget db employeeBudget.companyBudgetId with
      | none => .error .notFound
      | some budget =>
        if isCompanyAdmin db budget.companyId uid then
          if budget.status = .active then
            if allocSumExcluding db.employeeBudgets employeeBudget.companyBudgetId
                employeeBudgetId + allocatedAmount > budget.totalBudget then
              .error .budgetExceeded
            else if employeeBudget.spentAmount > allocatedAmount then .error .invalidReduction
            else
              .ok
                (patchBudget
                  (patchAllocation db employeeBudgetId fun eb =>
                    { eb with allocatedAmount := allocatedAmount,
                              remainingAmount := allocatedAmount - employeeBudget.spentAmount })
                  employeeBudget.companyBudgetId
                  (fun cb =>
                    { cb with
                      allocatedBudget :=
                        allocSumExcluding db.employeeBudgets employeeBudget.companyBudgetId
                          employeeBudgetId + allocatedAmount,
                      remainingBudget := budget.totalBudget -
                        (allocSumExcluding db.employeeBudgets employeeBudget.companyBudgetId
                          employeeBudgetId + allocatedAmount) }))
          else .error .notActiveBudget
        else .error .notAuthorized

/-- Rollback semantics of a failed mutation returning a database. -/
def commitUpdate (db : DB) (r : Except Err DB) : DB :=
  match r with
  | .ok db2 => db2
  | .error _ => db

theorem foldl_add_allocatedAmount (l : List EmployeeBudget) (init : Int) :
    l.foldl (fun sum a => sum + a.allocatedAmount) init =
      init + (l.map EmployeeBudget.allocatedAmount).sum := by
  induction l generalizing init with
  | nil => simp
  | cons a t ih => simp [List.foldl_cons, ih]; ring

theorem foldl_skip_allocatedAmount (l : List EmployeeBudget) (ebId : Nat) (init : Int) :
    l.foldl (fun sum a => if a.id = ebId then sum else sum + a.allocatedAmount) init =
      init + (l.map fun a => if a.id = ebId then (0 : Int) else a.allocatedAmount).sum := by
  induction l generalizing init with
  | nil => simp
  | cons a t ih =>
      by_cases h : a.id = ebId <;> simp [List.foldl_cons, h, ih]
      ring

theorem allocSum_eq_sum (l : List EmployeeBudget) (b : Nat) :
    allocSum l b =
      ((l.filter fun a => a.companyBudgetId = b).map EmployeeBudget.allocatedAmount).sum := by
  simp [allocSum, foldl_add_allocatedAmount]

theorem allocSumExcluding_eq_sum (l : List EmployeeBudget) (b ebId : Nat) :
    allocSumExcluding l b ebId =
      ((l.filter fun a => a.companyBudgetId = b).map
        fun a => if a.id = ebId then (0 : Int) else a.allocatedAmount).sum := by
  simp [allocSumExcluding, foldl_skip_allocatedAmount]

theorem allocSum_cons (a : EmployeeBudget) (t : List EmployeeBudget) (b : Nat) :
    allocSum (a :: t) b =
      (if a.companyBudgetId = b then a.allocatedAmount else 0) + allocSum t b := by
  simp only [allocSum_eq_sum, List.filter_cons]
  split <;> simp_all

theorem allocSumExcluding_cons (a : EmployeeBudget) (t : List EmployeeBudget) (b ebId : Nat) :
    allocSumExcluding (a :: t) b ebId =
      (if a.companyBudgetId = b then (if a.id = ebId then 0 else a.allocatedAmount) else 0) +
        allocSumExcluding t b ebId := by
  simp only [allocSumExcluding_eq_sum, List.filter_cons]
  split <;> simp_all

theorem allocSum_append_one (l : List EmployeeBudget) (e : EmployeeBudget) (b : Nat) :
    allocSum (l ++ [e]) b =
      allocSum l b + (if e.companyBudgetId = b then e.allocatedAmount else 0) := by
  simp only [allocSum_eq_sum, List.filter_append, List.map_append, List.sum_append,
    List.filter_cons]
  split <;> simp_all


theorem map_patch_not_mem (t : List EmployeeBudget) (ebId : Nat)
    (f : EmployeeBudget → EmployeeBudget) (h : ∀ x ∈ t, x.id ≠ ebId) :
    (t.map fun a => if a.id = ebId then f a else a) = t := by
  induction t with
  | nil => rfl
  | cons a t ih =>
      have ha := h a (by simp)
      simp only [List.map_cons, if_neg ha, List.cons.injEq, true_and]
      exact ih fun x hx => h x (by simp [hx])

theorem allocSumExcluding_of_not_mem (t : List EmployeeBudget) (b ebId : Nat)
    (h : ∀ x ∈ t, x.id ≠ ebId) : allocSumExcluding t b ebId = allocSum t b := by
  induction t with
  | nil => rfl
  | cons a t ih =>
      have ha := h a (by simp)
      rw [allocSumExcluding_cons, allocSum_cons, ih fun x hx => h x (by simp [hx])]
      simp [ha]

/-- With unique allocation ids, the full allocation sum of a budget splits as
the excluding-sum plus the excluded allocation's amount. -/
theorem allocSum_eq_excluding_add (l : List EmployeeBudget) (ebId : Nat) (eb : EmployeeBudget)
    (hfind : l.find? (fun a => a.id = ebId) = some eb)
    (hnd : (l.map EmployeeBudget.id).Nodup) :
    allocSum l eb.companyBudgetId =
      allocSumExcluding l eb.companyBudgetId ebId + eb.allocatedAmount := by
  induction l with
  | nil => simp at hfind
  | cons a t ih =>
      rw [List.map_cons, List.nodup_cons] at hnd
      by_cases ha : a.id = ebId
      · rw [List.find?_cons_of_pos _ (by simpa using ha)] at hfind
        have heb : a = eb := by simpa using hfind
        subst heb
        have hnot : ∀ x ∈ t, x.id ≠ ebId := by
          intro x hx hxe
          exact hnd.1 (by rw [ha, ← hxe]; exact List.mem_map_of_mem EmployeeBudget.id hx)
        rw [allocSum_cons, allocSumExcluding_cons, allocSumExcluding_of_not_mem t _ ebId hnot]
        simp [ha]
        ring
      · rw [List.find?_cons_of_neg _ (by simpa using ha)] at hfind
        rw [allocSum_cons, allocSumExcluding_cons, ih hfind hnd.2]
        simp only [ha, ite_false, if_neg ha]
        ring

theorem allocSum_patch_self (l : List EmployeeBudget) (ebId : Nat) (eb : EmployeeBudget)
    (amount s : Int)
    (hfind : l.find? (fun a => a.id = ebId) = some eb)
    (hnd : (l.map EmployeeBudget.id).Nodup) :
    allocSum
        (l.map fun a => if a.id = ebId then
          { a with allocatedAmount := amount, remainingAmount := amount - s } else a)
        eb.companyBudgetId =
      allocSumExcluding l eb.companyBudgetId ebId + amount := by
  induction l with
  | nil => simp at hfind
  | cons a t ih =>
      rw [List.map_cons, List.nodup_cons] at hnd
      by_cases ha : a.id = ebId
      · rw [List.find?_cons_of_pos _ (by simpa using ha)] at hfind
        have heb : a = eb := by simpa using hfind
        subst heb
        have hnot : ∀ x ∈ t, x.id ≠ ebId := by
          intro x hx hxe
          exact hnd.1 (by rw [ha, ← hxe]; exact List.mem_map_of_mem EmployeeBudget.id hx)
        rw [List.map_cons, if_pos ha, map_patch_not_mem t ebId _ hnot, allocSum_cons,
          allocSumExcluding_cons, allocSumExcluding_of_not_mem t _ ebId hnot]
        simp [ha]
        ring
      · rw [List.find?_cons_of_neg _ (by simpa using ha)] at hfind
        rw [List.map_cons, if_neg ha, allocSum_cons, allocSumExcluding_cons, ih hfind hnd.2]
        simp only [ha, ite_false, if_neg ha]
        ring

theorem allocSum_patch_other (l : List EmployeeBudget) (ebId : Nat) (amount s : Int) (b : Nat)
    (h : ∀ x ∈ l, x.id = ebId → x.companyBudgetId ≠ b) :
    allocSum
        (l.map fun a => if a.id = ebId then
          { a with allocatedAmount := amount, remainingAmount := amount - s } else a)
        b = allocSum l b := by
  induction l with
  | nil => rfl
  | cons a t ih =>
      rw [List.map_cons, allocSum_cons, allocSum_cons, ih fun x hx => h x (by simp [hx])]
      by_cases ha : a.id = ebId
      · have hb := h a (by simp) ha
        simp [ha, hb]
      · simp [ha]

/-- With unique keys, `find?` by key returns the unique matching element. -/
theorem find_key_unique {α : Type} (key : α → Nat) (l : List α)
    (hnd : (l.map key).Nodup) (k : Nat) (c : α) (hc : c ∈ l) (hck : key c = k)
    (r : α) (hfind : l.find? (fun x => key x = k) = some r) : r = c := by
  induction l with
  | nil => simp at hc
  | cons a t ih =>
      rw [List.map_cons, List.nodup_cons] at hnd
      by_cases pa : key a = k
      · rw [List.find?_cons_of_pos _ (by simpa using pa)] at hfind
        have hra : r = a := by simpa using hfind.symm
        rcases List.mem_cons.mp hc with hca | hct
        · rw [hra, hca]
        · exact absurd (by rw [pa, ← hck]; exact List.mem_map_of_mem key hct) hnd.1
      · rw [List.find?_cons_of_neg _ (by simpa using pa)] at hfind
        rcases List.mem_cons.mp hc with hca | hct
        · exact absurd (by rw [← hca]; exact hck) pa
        · exact ih hnd.2 hct hfind

/-- Characterisation of a successful `allocateEmployeeBudget` run. -/
theorem allocateEmployeeBudget_ok (db : DB) (u : Option Nat) (b m : Nat) (amt : Int)
    (db2 : DB) (newId : Nat)
    (h : allocateEmployeeBudget db u b m amt = .ok (db2, newId)) :
    ∃ budget, findBudget db b = some budget ∧
      allocSum db.employeeBudgets b + amt ≤ budget.totalBudget ∧
      db2.members = db.members ∧
      db2.employeeBudgets = db.employeeBudgets ++ [⟨db.nextId, b, m, amt, 0, amt⟩] ∧
      db2.companyBudgets = db.companyBudgets.map (fun cb => if cb.id = b then
        { cb with allocatedBudget := allocSum db.employeeBudgets b + amt,
                  remainingBudget :=
                    budget.totalBudget - (allocSum db.employeeBudgets b + amt) }
        else cb) ∧
      db2.nextId = db.nextId + 1 := by
  unfold allocateEmployeeBudget at h
  rcases u with _ | uid
  · simp at h
  rcases hb : findBudget db b with _ | budget <;> rw [hb] at h <;> dsimp only at h
  · simp at h
  by_cases hadm : isCompanyAdmin db budget.companyId uid = true
  · rw [if_pos hadm] at h
    by_cases hact : budget.status = .active
    · rw [if_pos hact] at h
      rcases hm : db.members.find? (fun mb => mb.id = m) with _ | member <;>
        rw [hm] at h <;> dsimp only at h
      · simp at h
      by_cases hcomp : member.companyId = budget.companyId
      · rw [if_pos hcomp] at h
        rcases hdup : allocationFor db m b with _ | ex <;> rw [hdup] at h <;> dsimp only at h
        · by_cases hgt : allocSum db.employeeBudgets b + amt > budget.totalBudget
          · rw [if_pos hgt] at h; simp at h
          · rw [if_neg hgt] at h
            simp only [Except.ok.injEq, Prod.mk.injEq] at h
            obtain ⟨hdb, _⟩ := h
            subst hdb
            exact ⟨budget, rfl, by omega, rfl, rfl, rfl, rfl⟩
        · simp at h
      · rw [if_neg hcomp] at h; simp at h
    · rw [if_neg hact] at h; simp at h
  · rw [if_neg hadm] at h; simp at h

/-- Characterisation of a successful `updateEmployeeBudget` run. -/
theorem updateEmployeeBudget_ok (db : DB) (u : Option Nat) (ebId : Nat) (amt : Int)
    (db2 : DB) (h : updateEmployeeBudget db u ebId amt = .ok db2) :
    ∃ eb budget, findAllocation db ebId = some eb ∧
      findBudget db eb.companyBudgetId = some budget ∧
      allocSumExcluding db.employeeBudgets eb.companyBudgetId ebId + amt ≤
        budget.totalBudget ∧
      db2.members = db.members ∧
      db2.employeeBudgets = db.employeeBudgets.map (fun a => if a.id = ebId then
        { a with allocatedAmount := amt, remainingAmount := amt - eb.spentAmount } else a) ∧
      db2.companyBudgets = db.companyBudgets.map (fun cb =>
        if cb.id = eb.companyBudgetId then
          { cb with
            allocatedBudget :=
              allocSumExcluding db.employeeBudgets eb.companyBudgetId ebId + amt,
            remainingBudget := budget.totalBudget -
              (allocSumExcluding db.employeeBudgets eb.companyBudgetId ebId + amt) }
        else cb) ∧
      db2.nextId = db.nextId := by
  unfold updateEmployeeBudget at h
  rcases u with _ | uid
  · simp at h
  rcases he : findAllocation db ebId with _ | eb <;> rw [he] at h <;> dsimp only at h
  · simp at h
  rcases hb : findBudget db eb.companyBudgetId with _ | budget <;>
    rw [hb] at h <;> dsimp only at h
  · simp at h
  by_cases hadm : isCompanyAdmin db budget.companyId uid = true
  · rw [if_pos hadm] at h
    by_cases hact : budget.status = .active
    · rw [if_pos hact] at h
      by_cases hgt : allocSumExcluding db.employeeBudgets eb.companyBudgetId ebId + amt >
          budget.totalBudget
      · rw [if_pos hgt] at h; simp at h
      · rw [if_neg hgt] at h
        by_cases hsp : eb.spentAmount > amt
        · rw [if_pos hsp] at h; simp at h
        · rw [if_neg hsp] at h
          simp only [Except.ok.injEq] at h
          subst h
          exact ⟨eb, budget, rfl, hb, by omega, rfl, rfl, rfl, rfl⟩
    · rw [if_neg hact] at h; simp at h
  · rw [if_neg hadm] at h; simp at h

/-- Well-formedness of the database ids: document ids are unique and below
the fresh-id counter (guaranteed by the Convex id generator). -/
def ledgerWF (db : DB) : Prop :=
  (db.employeeBudgets.map EmployeeBudget.id).Nodup ∧
  (∀ eb ∈ db.employeeBudgets, eb.id < db.nextId) ∧
  (db.companyBudgets.map CompanyBudget.id).Nodup

/-- The C2 invariant: for every budget, the sum of its allocations'
`allocatedAmount` is at most its `totalBudget`. -/
def budgetInvariant (db : DB) : Prop :=
  ∀ cb ∈ db.companyBudgets, allocSum db.employeeBudgets cb.id ≤ cb.totalBudget

/-- One call of the §4.2 allocation API (the two mutations C2 ranges over). -/
inductive LedgerOp
  | alloc (userId : Option Nat) (companyBudgetId memberId : Nat) (amount : Int)
  | upd (userId : Option Nat) (employeeBudgetId : Nat) (amount : Int)
deriving DecidableEq, Repr

/-- Run one ledger call; a thrown error rolls the transaction back. -/
def applyLedgerOp (db : DB) : LedgerOp → DB
  | .alloc u b m a =>
      match allocateEmployeeBudget db u b m a with
      | .ok p => p.1
      | .error _ => db
  | .upd u e a =>
      match updateEmployeeBudget db u e a with
      | .ok db2 => db2
      | .error _ => db

def applyLedgerOps (db : DB) (ops : List LedgerOp) : DB :=
  ops.foldl applyLedgerOp db

theorem applyLedgerOp_preserves (db : DB) (op : LedgerOp)
    (hwf : ledgerWF db) (hinv : budgetInvariant db) :
    ledgerWF (applyLedgerOp db op) ∧ budgetInvariant (applyLedgerOp db op) := by
  obtain ⟨hnd, hlt, hbnd⟩ := hwf
  cases op with
  | alloc u b m amt =>
      simp only [applyLedgerOp]
      cases h : allocateEmployeeBudget db u b m amt with
      | error e => exact ⟨⟨hnd, hlt, hbnd⟩, hinv⟩
      | ok p =>
          obtain ⟨budget, hb, hle, _, hebs, hcbs, hnext⟩ :=
            allocateEmployeeBudget_ok db u b m amt p.1 p.2 (by rw [h])
          have hid : ∀ cb : CompanyBudget,
              (if cb.id = b then
                { cb with allocatedBudget := allocSum db.employeeBudgets b + amt,
                          remainingBudget :=
                            budget.totalBudget - (allocSum db.employeeBudgets b + amt) }
               else cb).id = cb.id := by
            intro cb; split <;> rfl
          refine ⟨⟨?_, ?_, ?_⟩, ?_⟩
          · rw [hebs, List.map_append]
            simp only [List.map_cons, List.map_nil]
            rw [List.nodup_append]
            refine ⟨hnd, List.nodup_singleton _, ?_⟩
            intro x hx hx1
            simp only [List.mem_singleton] at hx1
            obtain ⟨y, hy, hyx⟩ := List.mem_map.mp hx
            have := hlt y hy
            omega
          · intro eb hmem
            rw [hebs] at hmem
            rw [hnext]
            rcases List.mem_append.mp hmem with hm1 | hm2
            · have := hlt eb hm1; omega
            · simp only [List.mem_singleton] at hm2
              subst hm2
              dsimp only
              omega
          · rw [hcbs, List.map_map]
            have : (CompanyBudget.id ∘ fun cb => if cb.id = b then
                { cb with allocatedBudget := allocSum db.employeeBudgets b + amt,
                          remainingBudget :=
                            budget.totalBudget - (allocSum db.employeeBudgets b + amt) }
               else cb) = CompanyBudget.id := by
              funext cb; exact hid cb
            rw [this]; exact hbnd
          · intro cb2 hmem2
            rw [hcbs] at hmem2
            obtain ⟨cb, hcb, hcbeq⟩ := List.mem_map.mp hmem2
            rw [hebs]
            by_cases hcid : cb.id = b
            · have hcbbud : budget = cb :=
                find_key_unique CompanyBudget.id db.companyBudgets hbnd b cb hcb hcid
                  budget hb
              subst hcbeq
              rw [if_pos hcid]
              dsimp only
              rw [hcid, allocSum_append_one]
              dsimp only
              rw [if_pos rfl]
              rw [hcbbud] at hle
              exact hle
            · subst hcbeq
              rw [if_neg hcid]
              rw [allocSum_append_one]
              have hne : ¬ ((⟨db.nextId, b, m, amt, 0, amt⟩ :
                  EmployeeBudget).companyBudgetId = cb.id) := by
                intro hh
                exact hcid (by simpa using hh.symm)
              rw [if_neg hne, add_zero]
              exact hinv cb hcb
  | upd u e amt =>
      simp only [applyLedgerOp]
      cases h : updateEmployeeBudget db u e amt with
      | error er => exact ⟨⟨hnd, hlt, hbnd⟩, hinv⟩
      | ok db2 =>
          obtain ⟨eb, budget, he, hb, hle, _, hebs, hcbs, hnext⟩ :=
            updateEmployeeBudget_ok db u e amt db2 h
          have hid : ∀ cb : CompanyBudget,
              (if cb.id = eb.companyBudgetId then
                { cb with
                  allocatedBudget :=
                    allocSumExcluding db.employeeBudgets eb.companyBudgetId e + amt,
                  remainingBudget := budget.totalBudget -
                    (allocSumExcluding db.employeeBudgets eb.companyBudgetId e + amt) }
               else cb).id = cb.id := by
            intro cb; split <;> rfl
          have heid : ∀ a : EmployeeBudget,
              (if a.id = e then
                { a with allocatedAmount := amt, remainingAmount := amt - eb.spentAmount }
               else a).id = a.id := by
            intro a; split <;> rfl
          refine ⟨⟨?_, ?_, ?_⟩, ?_⟩
          · rw [hebs, List.map_map]
            have : (EmployeeBudget.id ∘ fun a => if a.id = e then
                { a with allocatedAmount := amt, remainingAmount := amt - eb.spentAmount }
               else a) = EmployeeBudget.id := by
              funext a; exact heid a
            rw [this]; exact hnd
          · intro x hmem
            rw [hebs] at hmem
            rw [hnext]
            obtain ⟨y, hy, hyx⟩ := List.mem_map.mp hmem
            have hlt2 := hlt y hy
            have : x.id = y.id := by rw [← hyx]; exact heid y
            omega
          · rw [hcbs, List.map_map]
            have : (CompanyBudget.id ∘ fun cb => if cb.id = eb.companyBudgetId then
                { cb with
                  allocatedBudget :=
                    allocSumExcluding db.employeeBudgets eb.companyBudgetId e + amt,
                  remainingBudget := budget.totalBudget -
                    (allocSumExcluding db.employeeBudgets eb.companyBudgetId e + amt) }
               else cb) = CompanyBudget.id := by
              funext cb; exact hid cb
            rw [this]; exact hbnd
          · intro cb2 hmem2
            rw [hcbs] at hmem2
            obtain ⟨cb, hcb, hcbeq⟩ := List.mem_map.mp hmem2
            rw [hebs]
            by_cases hcid : cb.id = eb.companyBudgetId
            · have hcbbud : budget = cb :=
                find_key_unique CompanyBudget.id db.companyBudgets hbnd
                  eb.companyBudgetId cb hcb hcid budget hb
              subst hcbeq
              rw [if_pos hcid]
              dsimp only
              rw [hcid]
              rw [allocSum_patch_self db.employeeBudgets e eb amt eb.spentAmount he hnd]
              rw [hcbbud] at hle
              exact hle
            · subst hcbeq
              rw [if_neg hcid]
              have hother : ∀ x ∈ db.employeeBudgets, x.id = e →
                  x.companyBudgetId ≠ cb.id := by
                intro x hx hxe
                have hxeb : x = eb := by
                  have hfind : db.employeeBudgets.find? (fun a => a.id = e) = some eb := he
                  have := find_key_unique EmployeeBudget.id db.employeeBudgets hnd e x hx
                    hxe eb hfind
                  exact this.symm
                rw [hxeb]
                exact fun hcontra => hcid hcontra.symm
              rw [allocSum_patch_other db.employeeBudgets e amt eb.spentAmount cb.id hother]
              exact hinv cb hcb

theorem applyLedgerOps_preserves (db : DB) (ops : List LedgerOp)
    (hwf : ledgerWF db) (hinv : budgetInvariant db) :
    ledgerWF (applyLedgerOps db ops) ∧ budgetInvariant (applyLedgerOps db ops) := by
  induction ops generalizing db with
  | nil => exact ⟨hwf, hinv⟩
  | cons op t ih =>
      obtain ⟨hwf2, hinv2⟩ := applyLedgerOp_preserves db op hwf hinv
      exact ih (applyLedgerOp db op) hwf2 hinv2

/-- C2: for every budget, after any sequence of `allocateEmployeeBudget` /
`updateEmployeeBudget` calls the sum of `allocatedAmount` over the budget's
allocations stays at most `totalBudget` (first conjunct, from a well-formed
state satisfying the invariant); an allocate that keeps the sum at most
`totalBudget` — boundary equality included — succeeds (second conjunct);
and an allocate whose amount would push the sum strictly above `totalBudget`
fails with the budget-exceeded error (third conjunct). -/
theorem allocation_sum_invariant (db : DB) (ops : List LedgerOp)
    (uid b m : Nat) (a : Int) (budget : CompanyBudget) (member : Member)
    (hwf : ledgerWF db) (hinv : budgetInvariant db)
    (hbud : findBudget db b = some budget)
    (hadm : isCompanyAdmin db budget.companyId uid = true)
    (hact : budget.status = .active)
    (hm : db.members.find? (fun mb => mb.id = m) = some member)
    (hcomp : member.companyId = budget.companyId)
    (hdup : allocationFor db m b = none) :
    budgetInvariant (applyLedgerOps db ops) ∧
    (allocSum db.employeeBudgets b + a ≤ budget.totalBudget →
      ∃ db2, allocateEmployeeBudget db (some uid) b m a = .ok (db2, db.nextId)) ∧
    (allocSum db.employeeBudgets b + a > budget.totalBudget →
      allocateEmployeeBudget db (some uid) b m a = .error .budgetExceeded) := by
  refine ⟨(applyLedgerOps_preserves db ops hwf hinv).2, ?_, ?_⟩
  · intro hle
    refine ⟨patchBudget
      { db with
        employeeBudgets := db.employeeBudgets ++ [⟨db.nextId, b, m, a, 0, a⟩],
        nextId := db.nextId + 1 } b
      (fun cb =>
        { cb with allocatedBudget := allocSum db.employeeBudgets b + a,
                  remainingBudget := budget.totalBudget -
                    (allocSum db.employeeBudgets b + a) }), ?_⟩
    unfold allocateEmployeeBudget
    rw [hbud]
    dsimp only
    rw [if_pos hadm, if_pos hact, hm]
    dsimp only
    rw [if_pos hcomp, hdup]
    dsimp only
    rw [if_neg (by omega)]
  · intro hgt
    unfold allocateEmployeeBudget
    rw [hbud]
    dsimp only
    rw [if_pos hadm, if_pos hact, hm]
    dsimp only
    rw [if_pos hcomp, hdup]
    dsimp only
    rw [if_pos hgt]

instance ledgerWFDecidable (db : DB) : Decidable (ledgerWF db) := by
  unfold ledgerWF
  infer_instance

instance budgetInvariantDecidable (db : DB) : Decidable (budgetInvariant db) := by
  unfold budgetInvariant
  infer_instance

/-- The §8 scenario state: budget of 1000 (id 2), an admin (user 10) and two
employees (members 5 and 6), no allocations yet. -/
def dbC2 : DB :=
  { members := [⟨1, 100, 10, .companyAdmin⟩, ⟨5, 100, 20, .employee⟩,
      ⟨6, 100, 30, .employee⟩],
    companyBudgets := [⟨2, 100, 0, 1000, 1000, 0, 0, 1000, .active⟩],
    employeeBudgets := [], orders := [], cartItems := [], shirtTypes := [],
    variants := [], vendors := [], vendorMembers := [], nextId := 7 }

/-- Concrete instantiation of `allocation_sum_invariant`: allocating 600 to
employee 5 succeeds; a second 600 for employee 6 then fails with the
budget-exceeded error (600 + 600 > 1000); and the invariant holds after the
whole sequence including the boundary allocation of 400 (600 + 400 = 1000). -/
theorem allocation_sum_invariant_witness :
    budgetInvariant (applyLedgerOps dbC2
      [.alloc (some 10) 2 5 600, .alloc (some 10) 2 6 600, .alloc (some 10) 2 6 400]) ∧
    (∃ db2, allocateEmployeeBudget dbC2 (some 10) 2 5 600 = .ok (db2, 7)) ∧
    allocateEmployeeBudget (applyLedgerOps dbC2 [.alloc (some 10) 2 5 600])
      (some 10) 2 6 600 = .error .budgetExceeded := by
  refine ⟨?_, ?_, ?_⟩
  · exact (allocation_sum_invariant dbC2
      [.alloc (some 10) 2 5 600, .alloc (some 10) 2 6 600, .alloc (some 10) 2 6 400]
      10 2 5 600 ⟨2, 100, 0, 1000, 1000, 0, 0, 1000, .active⟩ ⟨5, 100, 20, .employee⟩
      (by decide) (by decide) (by decide) (by decide) (by decide) (by decide)
      (by decide) (by decide)).1
  · exact (allocation_sum_invariant dbC2 [] 10 2 5 600
      ⟨2, 100, 0, 1000, 1000, 0, 0, 1000, .active⟩ ⟨5, 100, 20, .employee⟩
      (by decide) (by decide) (by decide) (by decide) (by decide) (by decide)
      (by decide) (by decide)).2.1 (by decide)
  · exact (allocation_sum_invariant (applyLedgerOps dbC2 [.alloc (some 10) 2 5 600]) []
      10 2 6 600 ⟨2, 100, 0, 1000, 1000, 600, 0, 400, .active⟩ ⟨6, 100, 30, .employee⟩
      (by decide) (by decide) (by decide) (by decide) (by decide) (by decide)
      (by decide) (by decide)).2.2 (by decide)

/-- C8: reducing an allocation's `allocatedAmount` strictly below its current
`spentAmount` via `updateEmployeeBudget` fails with the invalid-reduction
error and (by transaction rollback) leaves the database — in particular the
allocation record and the parent budget's allocated totals — unchanged.
Stated for a consistent state: the budget is active, the allocation-sum
invariant holds for the parent budget, allocation ids are unique, and the
allocation's spend cache does not exceed its allocated amount. -/
theorem updateAllocation_below_spent (db : DB) (uid ebId : Nat) (amount : Int)
    (eb : EmployeeBudget) (budget : CompanyBudget)
    (hfind : findAllocation db ebId = some eb)
    (hbud : findBudget db eb.companyBudgetId = some budget)
    (hadm : isCompanyAdmin db budget.companyId uid = true)
    (hact : budget.status = .active)
    (hnd : (db.employeeBudgets.map EmployeeBudget.id).Nodup)
    (hinv : allocSum db.employeeBudgets eb.companyBudgetId ≤ budget.totalBudget)
    (hcache : eb.spentAmount ≤ eb.allocatedAmount)
    (hred : amount < eb.spentAmount) :
    updateEmployeeBudget db (some uid) ebId amount = .error .invalidReduction ∧
    commitUpdate db (updateEmployeeBudget db (some uid) ebId amount) = db := by
  have hsplit := allocSum_eq_excluding_add db.employeeBudgets ebId eb hfind hnd
  have heq : updateEmployeeBudget db (some uid) ebId amount = .error .invalidReduction := by
    unfold updateEmployeeBudget
    rw [hfind]
    dsimp only
    rw [hbud]
    dsimp only
    rw [if_pos hadm, if_pos hact, if_neg (by omega), if_pos (by omega)]
  exact ⟨heq, by rw [heq]; rfl⟩

/-- State for the C8 witness: allocation 3 has 500 allocated, 300 already
spent; the parent budget (id 2) is active with total 1000. -/
def dbC8 : DB :=
  { members := [⟨1, 100, 10, .companyAdmin⟩],
    companyBudgets := [⟨2, 100, 0, 1000, 1000, 500, 300, 500, .active⟩],
    employeeBudgets := [⟨3, 2, 1, 500, 300, 200⟩],
    orders := [], cartItems := [], shirtTypes := [], variants := [],
    vendors := [], vendorMembers := [], nextId := 4 }

/-- Concrete instantiation of `updateAllocation_below_spent`: reducing the
allocation to 200 < 300 spent fails with the invalid-reduction error and
leaves the state unchanged. -/
theorem updateAllocation_below_spent_witness :
    updateEmployeeBudget dbC8 (some 10) 3 200 = .error .invalidReduction ∧
    commitUpdate dbC8 (updateEmployeeBudget dbC8 (some 10) 3 200) = dbC8 :=
  updateAllocation_below_spent dbC8 10 3 200 ⟨3, 2, 1, 500, 300, 200⟩
    ⟨2, 100, 0, 1000, 1000, 500, 300, 500, .active⟩ (by decide) (by decide) (by decide)
    (by decide) (by decide) (by decide) (by decide) (by decide)

/-! ## Order creation (`createOrderFromCart`, orders.ts lines 8–119) -/

/-- The caller's cart for the company (`by_user_and_company` index). -/
def cartFor (db : DB) (userId companyId : Nat) : List CartItem :=
  db.cartItems.filter fun ci => ci.userId = userId && ci.companyId = companyId

/-- Pricing of the cart (orders.ts lines 34–64): resolve shirt type and
variant (`Invalid cart item` when missing), check the size is offered,
`unitPrice = basePrice + priceModifier`, accumulate the total. -/
def buildOrderItems (db : DB) : List CartItem → Except Err (List OrderItem × Int)
  | [] => .ok ([], 0)
  | ci :: rest =>
    match db.shirtTypes.find? fun st => st.id = ci.shirtTypeId with
    | none => .error .invalidCartItem
    | some shirtType =>
      match db.variants.find? fun va => va.id = ci.variantId with
      | none => .error .invalidCartItem
      | some variant =>
        if variant.availableSizes.contains ci.size then
          match buildOrderItems db rest with
          | .error e => .error e
          | .ok (items, total) =>
            .ok (⟨ci.shirtTypeId, ci.variantId, ci.size, ci.quantity,
                shirtType.basePrice + variant.priceModifier,
                (shirtType.basePrice + variant.priceModifier) * ci.quantity⟩ :: items,
              (shirtType.basePrice + variant.priceModifier) * ci.quantity + total)
        else .error .sizeUnavailable

/-- The insert of the new `pending_approval` order followed by the deletion
of the collected cart items (orders.ts lines 90–115). -/
def insertOrderClearCart (db : DB) (uid companyId : Nat) (orderItems : List OrderItem)
    (totalAmount : Int) (ps : PaymentSource) (bId eId : Option Nat) : DB × Nat :=
  ({ db with
      orders := db.orders ++ [⟨db.nextId, companyId, uid, orderItems, totalAmount,
        .pending_approval, some ps, bId, eId⟩],
      cartItems := db.cartItems.filter fun ci =>
        !(ci.userId = uid && ci.companyId = companyId),
      nextId := db.nextId + 1 }, db.nextId)

/-- Embedding of the `createOrderFromCart` mutation: empty-cart check,
membership check, pricing, the Availability Gate call when
`paymentSource = company_budget` (re-throwing its reason on
`available = false`), then the order insert and cart clear.  A thrown error
(`Except.error`) rolls the whole transaction back. -/
def createOrderFromCart (db : DB) (now : Int) (userId : Option Nat) (companyId : Nat)
    (paymentSourceArg : Option PaymentSource) : Except Err (DB × Nat) :=
  match userId with
  | none => .error .notAuthenticated
  | some uid =>
    if cartFor db uid companyId = [] then .error .cartEmpty
    else
      match findMembership db companyId uid with
      | none => .error .notAuthorized
      | some membership =>
        match buildOrderItems db (cartFor db uid companyId) with
        | .error e => .error e
        | .ok (orderItems, totalAmount) =>
          if paymentSourceArg.getD .personal = .company_budget then
            match checkBudgetAvailability db now (some uid) companyId
                (some membership.id) totalAmount with
            | r =>
              if r.available then
                .ok (insertOrderClearCart db uid companyId orderItems totalAmount
                  .company_budget r.budgetId r.employeeBudgetId)
              else .error (.budgetUnavailable (r.reason.getD .insufficientBudget))
          else
            .ok (insertOrderClearCart db uid companyId orderItems totalAmount
              .personal none none)

/-- Rollback semantics of a failed mutation returning a database and an id. -/
def commitInsert (db : DB) (r : Except Err (DB × Nat)) : DB :=
  match r with
  | .ok p => p.1
  | .error _ => db

/-- C7: an order creation with `paymentSource = company_budget` whose cart
total exceeds the recomputed remaining of the member's allocation fails with
the insufficient-budget error re-thrown from the Availability Gate (the
spec's `BudgetExceededError`), inserts no order, and leaves the cart with
exactly as many items as before. -/
theorem createOrder_budget_exceeded (db : DB) (now : Int) (uid companyId : Nat)
    (membership : Member) (cb : CompanyBudget) (eb : EmployeeBudget)
    (items : List OrderItem) (total : Int)
    (hcart : ¬ cartFor db uid companyId = [])
    (hmem : findMembership db companyId uid = some membership)
    (hitems : buildOrderItems db (cartFor db uid companyId) = .ok (items, total))
    (hcb : activeBudgetFor db companyId now = some cb)
    (heb : allocationFor db membership.id cb.id = some eb)
    (hgt : eb.allocatedAmount - spentForAllocation db.orders cb.id eb.id < total) :
    createOrderFromCart db now (some uid) companyId (some .company_budget) =
      .error (.budgetUnavailable .insufficientBudget) ∧
    commitInsert db (createOrderFromCart db now (some uid) companyId
      (some .company_budget)) = db ∧
    (commitInsert db (createOrderFromCart db now (some uid) companyId
      (some .company_budget))).cartItems.length = db.cartItems.length ∧
    (commitInsert db (createOrderFromCart db now (some uid) companyId
      (some .company_budget))).orders = db.orders := by
  have hres : resolveMemberToCheck db membership (some membership.id) = some membership := by
    simp [resolveMemberToCheck]
  have hchk : checkBudgetAvailability db now (some uid) companyId
      (some membership.id) total =
      { available := false, reason := some .insufficientBudget,
        remaining := some (eb.allocatedAmount - spentForAllocation db.orders cb.id eb.id),
        employeeBudgetId := some eb.id, budgetId := some cb.id } := by
    unfold checkBudgetAvailability
    dsimp only
    rw [hmem]
    dsimp only
    rw [hres]
    dsimp only
    rw [hcb]
    dsimp only [Option.getD]
    rw [heb]
    dsimp only
    rw [if_neg (by omega)]
  have heq : createOrderFromCart db now (some uid) companyId (some .company_budget) =
      .error (.budgetUnavailable .insufficientBudget) := by
    unfold createOrderFromCart
    dsimp only
    rw [if_neg hcart, hmem]
    dsimp only
    rw [hitems]
    dsimp only [Option.getD]
    rw [if_pos rfl, hchk]
    rfl
  refine ⟨heq, ?_, ?_, ?_⟩ <;> simp [heq, commitInsert]

instance exceptDecidableEq {ε α : Type} [DecidableEq ε] [DecidableEq α] :
    DecidableEq (Except ε α) := fun a b =>
  match a, b with
  | .error e1, .error e2 =>
      if h : e1 = e2 then isTrue (by rw [h])
      else isFalse (by intro hh; injection hh; exact h (by assumption))
  | .error _, .ok _ => isFalse (by intro hh; exact Except.noConfusion hh)
  | .ok _, .error _ => isFalse (by intro hh; exact Except.noConfusion hh)
  | .ok v1, .ok v2 =>
      if h : v1 = v2 then isTrue (by rw [h])
      else isFalse (by intro hh; injection hh; exact h (by assumption))

/-- State for the C7 witness: the §8 exhausted-allocation scenario with a
one-item cart priced at 1. -/
def dbC7 : DB :=
  { members := [⟨1, 100, 10, .employee⟩],
    companyBudgets := [⟨2, 100, 0, 1000, 500, 500, 0, 500, .active⟩],
    employeeBudgets := [⟨3, 2, 1, 500, 0, 500⟩],
    orders := [⟨4, 100, 10, [], 500, .approved, some .company_budget, some 2, some 3⟩],
    cartItems := [⟨20, 10, 100, 30, 40, 1, 1⟩],
    shirtTypes := [⟨30, 1⟩], variants := [⟨40, 0, [1]⟩],
    vendors := [], vendorMembers := [], nextId := 50 }

/-- Concrete instantiation of `createOrder_budget_exceeded` on `dbC7`:
remaining 0, cart total 1, creation fails and the cart keeps its one item. -/
theorem createOrder_budget_exceeded_witness :
    createOrderFromCart dbC7 500 (some 10) 100 (some .company_budget) =
      .error (.budgetUnavailable .insufficientBudget) ∧
    commitInsert dbC7 (createOrderFromCart dbC7 500 (some 10) 100
      (some .company_budget)) = dbC7 ∧
    (commitInsert dbC7 (createOrderFromCart dbC7 500 (some 10) 100
      (some .company_budget))).cartItems.length = dbC7.cartItems.length ∧
    (commitInsert dbC7 (createOrderFromCart dbC7 500 (some 10) 100
      (some .company_budget))).orders = dbC7.orders :=
  createOrder_budget_exceeded dbC7 500 10 100 ⟨1, 100, 10, .employee⟩
    ⟨2, 100, 0, 1000, 500, 500, 0, 500, .active⟩ ⟨3, 2, 1, 500, 0, 500⟩
    [⟨30, 40, 1, 1, 1, 1⟩] 1 (by decide) (by decide) (by decide) (by decide)
    (by decide) (by decide)

theorem buildOrderItems_budgets_irrel (db : DB) (cbs : List CompanyBudget)
    (ebs : List EmployeeBudget) (l : List CartItem) :
    buildOrderItems { db with companyBudgets := cbs, employeeBudgets := ebs } l =
      buildOrderItems db l := by
  induction l with
  | nil => rfl
  | cons ci rest ih =>
      simp only [buildOrderItems]
      rw [ih]

theorem spentForAllocation_append_unbound (orders : List Order) (o : Order)
    (hb : o.employeeBudgetId = none) (b e : Nat) :
    spentForAllocation (orders ++ [o]) b e = spentForAllocation orders b e := by
  simp [spentForAllocation, List.filter_append, boundTo, hb]

/-- C10: when the `paymentSource` argument is omitted, `createOrderFromCart`
defaults the order's `paymentSource` to `personal` and stores no
`budgetId`/`employeeBudgetId` binding — stated as a full characterisation of
the resulting state, for an arbitrary content of the budget tables (`cbs`,
`ebs`), which shows no budget availability check is consulted; and the
resulting order contributes nothing to any allocation's recomputed spend in
any status, because the recomputation filters on the absent binding. -/
theorem createOrder_personal_default (db : DB) (now : Int) (uid companyId : Nat)
    (membership : Member) (items : List OrderItem) (total : Int)
    (cbs : List CompanyBudget) (ebs : List EmployeeBudget)
    (hcart : ¬ cartFor db uid companyId = [])
    (hmem : findMembership db companyId uid = some membership)
    (hitems : buildOrderItems db (cartFor db uid companyId) = .ok (items, total)) :
    createOrderFromCart { db with companyBudgets := cbs, employeeBudgets := ebs } now
        (some uid) companyId none =
      .ok ({ db with
              companyBudgets := cbs, employeeBudgets := ebs,
              orders := db.orders ++ [⟨db.nextId, companyId, uid, items, total,
                .pending_approval, some .personal, none, none⟩],
              cartItems := db.cartItems.filter fun ci =>
                !(ci.userId = uid && ci.companyId = companyId),
              nextId := db.nextId + 1 }, db.nextId) ∧
    (∀ (st : OrderStatus) (b e : Nat),
      spentForAllocation (db.orders ++ [⟨db.nextId, companyId, uid, items, total,
        st, some .personal, none, none⟩]) b e = spentForAllocation db.orders b e) := by
  constructor
  · have hc : cartFor { db with companyBudgets := cbs, employeeBudgets := ebs }
        uid companyId = cartFor db uid companyId := rfl
    have hm2 : findMembership { db with companyBudgets := cbs, employeeBudgets := ebs }
        companyId uid = findMembership db companyId uid := rfl
    unfold createOrderFromCart
    dsimp only
    rw [hc, hm2, if_neg hcart, hmem]
    dsimp only
    rw [buildOrderItems_budgets_irrel db cbs ebs, hitems]
    dsimp only [Option.getD]
    rw [if_neg (by decide : ¬ (PaymentSource.personal = PaymentSource.company_budget))]
    rfl
  · intro st b e
    exact spentForAllocation_append_unbound db.orders _ rfl b e

/-- Concrete instantiation of `createOrder_personal_default` on the `dbC7`
state with the budget tables emptied: the created order is `personal`,
unbound, and leaves every allocation's recomputed spend unchanged even if
its status were `approved`. -/
theorem createOrder_personal_default_witness :
    createOrderFromCart { dbC7 with companyBudgets := [], employeeBudgets := [] } 500
        (some 10) 100 none =
      .ok ({ dbC7 with
              companyBudgets := [], employeeBudgets := [],
              orders := dbC7.orders ++ [⟨50, 100, 10, [⟨30, 40, 1, 1, 1, 1⟩], 1,
                .pending_approval, some .personal, none, none⟩],
              cartItems := [], nextId := 51 }, 50) ∧
    spentForAllocation (dbC7.orders ++ [⟨50, 100, 10, [⟨30, 40, 1, 1, 1, 1⟩], 1,
        .approved, some .personal, none, none⟩]) 2 3 =
      spentForAllocation dbC7.orders 2 3 := by
  have h := createOrder_personal_default dbC7 500 10 100 ⟨1, 100, 10, .employee⟩
    [⟨30, 40, 1, 1, 1, 1⟩] 1 [] [] (by decide) (by decide) (by decide)
  exact ⟨h.1, h.2 .approved 2 3⟩

/-! ## Order State Machine (`updateOrderStatus`, orders.ts lines 229–282;
`approveOrder`, shirts.ts lines 466–527; `deductBudget`, budgets.ts
lines 566–627) -/

/-- Embedding of the `updateOrderStatus` mutation.  The source performs
authentication, an order lookup, a member-or-vendor authorisation check and
the admin-only guard for `cancelled`, then patches the requested status
unconditionally — it contains no state-machine transition validation. -/
def updateOrderStatus (db : DB) (userId : Option Nat) (orderId : Nat)
    (status : OrderStatus) : Except Err DB :=
  match userId with
  | none => .error .notAuthenticated
  | some uid =>
    match db.orders.find? fun o => o.id = orderId with
    | none => .error .notFound
    | some order =>
      match findMembership db order.companyId uid with
      | some membership =>
          if status = .cancelled ∧ membership.role ≠ .companyAdmin then
            .error .notAuthorized
          else .ok { db with orders := setOrderStatus db.orders orderId status }
      | none =>
        match db.vendorMembers.find? fun vm => vm.userId = uid with
        | none => .error .notAuthorized
        | some vm =>
          match db.vendors.find? fun vd => vd.id = vm.vendorId with
          | none => .error .notAuthorized
          | some vendor =>
            if vendor.companyId = order.companyId then
              if status = .cancelled then .error .notAuthorized
              else .ok { db with orders := setOrderStatus db.orders orderId status }
            else .error .notAuthorized

/-- Embedding of the `deductBudget` mutation: re-read the order, return
silently unless it is a budget-bound company-budget order, recompute the
employee's recognized spend, then refresh the allocation's cache — and
refresh the company budget's `spentBudget`/`remainingBudget` from the
**same employee-filtered sum** (the source computes `companySpent` by
reducing the identical employee-filtered `orders` array, budgets.ts
lines 608–612). -/
def deductBudget (db : DB) (orderId : Nat) : Except Err DB :=
  match db.orders.find? fun o => o.id = orderId with
  | none => .error .notFound
  | some order =>
    match order.paymentSource, order.employeeBudgetId, order.budgetId with
    | some .company_budget, some ebId, some bId =>
      match findAllocation db ebId with
      | none => .error .notFound
      | some employeeBudget =>
        match findBudget db bId with
        | none => .error .notFound
        | some companyBudget =>
          .ok (patchBudget
            (patchAllocation db ebId fun eb =>
              { eb with spentAmount := spentForAllocation db.orders bId ebId,
                        remainingAmount := employeeBudget.allocatedAmount -
                          spentForAllocation db.orders bId ebId })
            bId fun cb =>
              { cb with spentBudget := spentForAllocation db.orders bId ebId,
                        remainingBudget := companyBudget.totalBudget -
                          spentForAllocation db.orders bId ebId })
    | _, _, _ => .ok db

/-- Embedding of the `approveOrder` mutation: authentication, order lookup,
admin check, then an unconditional patch of the status to `approved`
(the approval metadata fields are outside the model), followed by
`deductBudget` when the order is a bound company-budget order.  The
notification, audit-log and purchase-order scheduling writes are external
sinks.  Note there is no budget availability re-validation anywhere on this
path. -/
def approveOrder (db : DB) (userId : Option Nat) (orderId : Nat) : Except Err DB :=
  match userId with
  | none => .error .notAuthenticated
  | some uid =>
    match db.orders.find? fun o => o.id = orderId with
    | none => .error .notFound
    | some order =>
      if isCompanyAdmin db order.companyId uid then
        if order.paymentSource = some .company_budget ∧ order.employeeBudgetId ≠ none then
          deductBudget { db with orders := setOrderStatus db.orders orderId .approved }
            orderId
        else .ok { db with orders := setOrderStatus db.orders orderId .approved }
      else .error .notAuthorized

/-- State for C3: company admin (user 10) and one `delivered` order (id 5). -/
def dbC3 : DB :=
  { members := [⟨1, 100, 10, .companyAdmin⟩],
    companyBudgets := [], employeeBudgets := [],
    orders := [⟨5, 100, 20, [], 50, .delivered, some .personal, none, none⟩],
    cartItems := [], shirtTypes := [], variants := [], vendors := [],
    vendorMembers := [], nextId := 6 }

/-- C3 (evaluation at the failing input): `updateOrderStatus` performs no
transition validation — moving a `delivered` order backward to `confirmed`
succeeds and writes the new status, and even `cancelled` from `delivered`
succeeds for an admin, where the spec demands an invalid-transition failure
leaving the status unchanged. -/
theorem updateOrderStatus_allows_backward :
    updateOrderStatus dbC3 (some 10) 5 .confirmed =
      .ok { dbC3 with
        orders := [⟨5, 100, 20, [], 50, .confirmed, some .personal, none, none⟩] } ∧
    ((commitUpdate dbC3 (updateOrderStatus dbC3 (some 10) 5 .confirmed)).orders.find?
      fun o => o.id = 5).map Order.status = some .confirmed ∧
    updateOrderStatus dbC3 (some 10) 5 .cancelled =
      .ok { dbC3 with
        orders := [⟨5, 100, 20, [], 50, .cancelled, some .personal, none, none⟩] } := by
  decide

/-- State for C1: allocation 3 has 200 allocated and nothing spent; two
pending company-budget orders (150 and 100) are bound to it, so approving
both must exceed the allocation. -/
def dbC1 : DB :=
  { members := [⟨1, 100, 10, .companyAdmin⟩, ⟨4, 100, 20, .employee⟩],
    companyBudgets := [⟨2, 100, 0, 1000, 200, 200, 0, 200, .active⟩],
    employeeBudgets := [⟨3, 2, 4, 200, 0, 200⟩],
    orders := [⟨5, 100, 20, [], 150, .pending_approval, some .company_budget,
        some 2, some 3⟩,
      ⟨6, 100, 20, [], 100, .pending_approval, some .company_budget, some 2, some 3⟩],
    cartItems := [], shirtTypes := [], variants := [], vendors := [],
    vendorMembers := [], nextId := 7 }

def dbC1a : DB := commitUpdate dbC1 (approveOrder dbC1 (some 10) 5)

def dbC1b : DB := commitUpdate dbC1a (approveOrder dbC1a (some 10) 6)

/-- C1 (evaluation at the failing input): `approveOrder` performs no budget
re-validation.  Approving the 150 order leaves recomputed remaining 50;
approving the 100 order then also succeeds (instead of being rejected), the
order becomes `approved`, and the allocation's recognized spend reaches 250,
strictly above its 200 `allocatedAmount`. -/
theorem approveOrder_overspends :
    approveOrder dbC1 (some 10) 5 = .ok dbC1a ∧
    spentForAllocation dbC1a.orders 2 3 = 150 ∧
    approveOrder dbC1a (some 10) 6 = .ok dbC1b ∧
    ((dbC1b.orders.find? fun o => o.id = 6).map Order.status = some .approved) ∧
    spentForAllocation dbC1b.orders 2 3 = 250 ∧
    (findAllocation dbC1 3).map EmployeeBudget.allocatedAmount = some 200 := by
  decide

/-- State for C6: budget 2 has two allocations; employee member 4 (allocation
6) has a pending 100 order, employee member 5 (allocation 7) already has an
approved 300 order counted against the same budget. -/
def dbC6 : DB :=
  { members := [⟨1, 100, 10, .companyAdmin⟩, ⟨4, 100, 20, .employee⟩,
      ⟨5, 100, 30, .employee⟩],
    companyBudgets := [⟨2, 100, 0, 1000, 1000, 800, 300, 700, .active⟩],
    employeeBudgets := [⟨6, 2, 4, 500, 0, 500⟩, ⟨7, 2, 5, 300, 300, 0⟩],
    orders := [⟨8, 100, 20, [], 100, .pending_approval, some .company_budget,
        some 2, some 6⟩,
      ⟨9, 100, 30, [], 300, .approved, some .company_budget, some 2, some 7⟩],
    cartItems := [], shirtTypes := [], variants := [], vendors := [],
    vendorMembers := [], nextId := 10 }

def dbC6a : DB := commitUpdate dbC6 (approveOrder dbC6 (some 10) 8)

/-- C6 (evaluation at the failing input): after approving order 8,
`deductBudget` writes the approving employee's recognized spend (100) into
both the allocation cache (correct per §4.3) and the company budget's
`spentBudget` cache — although the §4.3 recomputation over all recognized
orders of budget 2 across all employees is 400 (100 + 300). -/
theorem deductBudget_company_spend_bug :
    approveOrder dbC6 (some 10) 8 = .ok dbC6a ∧
    (findAllocation dbC6a 6).map EmployeeBudget.spentAmount = some 100 ∧
    spentForAllocation dbC6a.orders 2 6 = 100 ∧
    (findBudget dbC6a 2).map CompanyBudget.spentBudget = some 100 ∧
    spentForBudget dbC6a.orders 2 = 400 := by
  decide
